import Mathlib

set_option linter.unusedVariables false

/-! Verification development for the autonomous robot-trading engine of this
repository. The definitions below are a shallow embedding of the control
logic of the RobotTrading component: the scan pipeline (scanForSignals), the
sizing and execution step (executeRobotTrade), the tick interval that drives
scans, and the environment-change effect that stops the robot. Prices and
confidences are modelled as rationals; optional duck-typed payload fields are
Option values, with JavaScript truthiness (zero and the empty string are
falsy) made explicit where the code relies on it. -/

/-- Numeric value of a decimal digit character. -/
def digitVal (c : Char) : Nat := c.toNat - 48

/-- Natural number denoted by a list of decimal digit characters. -/
def natOfDigits (cs : List Char) : Nat :=
  cs.foldl (fun n c => n * 10 + digitVal c) 0

/-- Value of a nonnegative decimal numeral, as parseFloat and numeric coercion
produce on the well-formed numeric strings the engine feeds them. A string
that is not a plain nonnegative decimal numeral yields none. -/
def parseDecimalChars (cs : List Char) : Option ℚ :=
  let intPart := cs.takeWhile (fun c => c ≠ '.')
  let rest := cs.dropWhile (fun c => c ≠ '.')
  match rest with
  | [] =>
      if intPart.all Char.isDigit ∧ intPart ≠ [] then
        some (natOfDigits intPart)
      else none
  | _ :: fracPart =>
      if (intPart ++ fracPart).all Char.isDigit ∧ intPart ++ fracPart ≠ [] then
        some ((natOfDigits intPart : ℚ) + (natOfDigits fracPart : ℚ) / (10 : ℚ) ^ fracPart.length)
      else none

/-- Lower bound of an entry range string: the text before the first dash,
parsed as a number. Embeds the split of entry_range on the dash followed by
the numeric use of the first piece. -/
def entryRangeLow (s : String) : Option ℚ :=
  parseDecimalChars (s.toList.takeWhile (fun c => c ≠ '-'))

/-- One AI recommendation as consumed by the robot: the duck-typed payload
returned by aiApi.getRecommendations. Fields the engine never reads are
omitted; optional price fields carry none when absent. -/
structure Recommendation where
  symbol : String
  signal : String
  confidence : ℚ
  is_fallback : Bool := false
  entry_price : Option ℚ := none
  entry : Option ℚ := none
  entry_range : Option String := none
  target_price : Option ℚ := none
  target : Option ℚ := none
  take_profit : Option ℚ := none
  stop_loss : Option ℚ := none
  stop : Option ℚ := none
  reason : String := ""
deriving DecidableEq

/-- The robot configuration held in component state (RobotConfig in the
source). -/
structure RobotConfig where
  enabled : Bool
  minConfidence : ℚ
  maxPositions : Nat
  leverage : ℚ
  strategies : List String
  capitalPerTrade : ℚ
deriving DecidableEq

/-- DEFAULT_CONFIG of the source. -/
def DEFAULT_CONFIG : RobotConfig :=
  { enabled := false
    minConfidence := 75
    maxPositions := 3
    leverage := 25
    strategies := ["Breakout", "Trend Fusion"]
    capitalPerTrade := 5 }

/-- The order payload sent to tradingApi.executeTrade (fields the claims are
about; order_type is always MARKET and trading_mode is ambient). -/
structure OrderIntent where
  symbol : String
  side : String
  quantity : ℚ
  price : ℚ
  leverage : ℚ
  stop_loss : Option ℚ := none
  take_profit : Option ℚ := none
  ai_confidence : ℚ
deriving DecidableEq

/-- The status state of the component: idle, scanning or executing. -/
inductive RunState
  | idle
  | scanning
  | executing
deriving DecidableEq

/-- JavaScript disjunction a || b on optional numbers: the left value is kept
when it is present and truthy (nonzero); otherwise the right operand is the
result. -/
def jsOr (a b : Option ℚ) : Option ℚ :=
  match a with
  | some x => if x = 0 then b else some x
  | none => b

/-- JavaScript conditional v ? v : undefined on an optional number: a held
zero collapses to absent. -/
def jsOpt (o : Option ℚ) : Option ℚ :=
  match o with
  | some v => if v = 0 then none else some v
  | none => none

/-- The list of actionable signal strings of the source filter. -/
def actionableSignals : List String :=
  ["STRONG BUY", "BUY", "STRONG SELL", "SELL"]

/-- The per-recommendation filter of scanForSignals: not a fallback, at or
above the confidence threshold, and an actionable direction (HOLD and any
other string are dropped). -/
def passesFilter (minConf : ℚ) (r : Recommendation) : Bool :=
  !r.is_fallback && decide (minConf ≤ r.confidence) && actionableSignals.contains r.signal

/-- Number of occurrences of a symbol in a recommendation list (the
symbolCounts reduce of the source). -/
def symbolCount (recs : List Recommendation) (sym : String) : Nat :=
  (recs.filter (fun r => r.symbol = sym)).length

/-- The filtered union allRecs of the source: both provider result lists
concatenated and passed through the per-signal filter. -/
def filteredUnion (minConf : ℚ) (qwenRecs deepseekRecs : List Recommendation) :
    List Recommendation :=
  (qwenRecs ++ deepseekRecs).filter (passesFilter minConf)

/-- The recommendations that survive both the per-signal filter and the
consensus filter: their symbol occurs at least twice in the filtered union of
the two provider result lists. -/
def survivingSignals (minConf : ℚ) (qwenRecs deepseekRecs : List Recommendation) :
    List Recommendation :=
  (filteredUnion minConf qwenRecs deepseekRecs).filter
    (fun r => decide (2 ≤ symbolCount (filteredUnion minConf qwenRecs deepseekRecs) r.symbol))

/-- First element of maximal confidence in a list: the head of the stable
descending sort by confidence used by the source. -/
def pickBest : List Recommendation → Option Recommendation
  | [] => none
  | r :: rs =>
      match pickBest rs with
      | none => some r
      | some b => if b.confidence > r.confidence then some b else some r

/-- The best signal selected by one scan, when any: the highest-confidence
recommendation among those that survive consensus filtering. -/
def scanCandidate (minConf : ℚ) (qwenRecs deepseekRecs : List Recommendation) :
    Option Recommendation :=
  pickBest (survivingSignals minConf qwenRecs deepseekRecs)

/-- The recommendation handed to executeRobotTrade by one scan, when any: the
candidate passes on to execution only under the capacity check
executedToday < maxPositions. -/
def scanDispatch (cfg : RobotConfig) (executedToday : Nat)
    (qwenRecs deepseekRecs : List Recommendation) : Option Recommendation :=
  match scanCandidate cfg.minConfidence qwenRecs deepseekRecs with
  | none => none
  | some c => if executedToday < cfg.maxPositions then some c else none

/-- Side of the order: BUY for the two buy signal strings, SELL otherwise. -/
def orderSide (r : Recommendation) : String :=
  if r.signal = "STRONG BUY" ∨ r.signal = "BUY" then "BUY" else "SELL"

/-- The entry price executeRobotTrade normalizes out of the signal: the
entry_price field when present and truthy, else the entry field likewise,
else the lower bound of a nonempty entry_range string. -/
def entryPriceOf (r : Recommendation) : Option ℚ :=
  jsOr (jsOr r.entry_price r.entry)
    (match r.entry_range with
     | none => none
     | some s => if s.toList.isEmpty then none else entryRangeLow s)

/-- The raw take-profit chain target_price, else target, else take_profit. -/
def takeProfitRaw (r : Recommendation) : Option ℚ :=
  jsOr (jsOr r.target_price r.target) r.take_profit

/-- The raw stop-loss chain stop_loss, else stop. -/
def stopLossRaw (r : Recommendation) : Option ℚ :=
  jsOr r.stop_loss r.stop

/-- The take-profit level the code treats as present: the raw chain value
when it is truthy. -/
def presentTP (r : Recommendation) : Option ℚ := jsOpt (takeProfitRaw r)

/-- The stop-loss level the code treats as present: the raw chain value when
it is truthy. -/
def presentSL (r : Recommendation) : Option ℚ := jsOpt (stopLossRaw r)

/-- The pure part of executeRobotTrade: the order submitted to
tradingApi.executeTrade for a signal, or none when the step aborts on a
missing or nonpositive entry price. Quantity is capitalPerTrade over the
entry price; a present protective level closer to entry than 0.5 percent is
replaced by the fixed 2 percent take-profit or 1 percent stop-loss distance
on the appropriate side. -/
def buildOrder (cfg : RobotConfig) (r : Recommendation) : Option OrderIntent :=
  let side := orderSide r
  match entryPriceOf r with
  | none => none
  | some p =>
      if p ≤ 0 then none
      else
        let quantity := cfg.capitalPerTrade / p
        let takeProfit := takeProfitRaw r
        let stopLoss := stopLossRaw r
        let minDistance := p * (5 / 1000)
        let validTP : Option ℚ :=
          match takeProfit with
          | none => none
          | some tp =>
              if tp ≠ 0 ∧ |tp - p| < minDistance then
                some (if side = "BUY" then p * (102 / 100) else p * (98 / 100))
              else some tp
        let validSL : Option ℚ :=
          match stopLoss with
          | none => none
          | some sl =>
              if sl ≠ 0 ∧ |sl - p| < minDistance then
                some (if side = "BUY" then p * (99 / 100) else p * (101 / 100))
              else some sl
        some
          { symbol := r.symbol
            side := side
            quantity := quantity
            price := p
            leverage := cfg.leverage
            stop_loss := jsOpt validSL
            take_profit := jsOpt validTP
            ai_confidence := r.confidence }

/-- One run of executeRobotTrade on a signal, returning the executedToday
counter after the run and the number of Execution API calls made. The api
argument is the outcome of the single tradingApi.executeTrade call when it is
reached: ok true reports success, ok false a reported failure, and error a
thrown exception (caught and logged by the code). -/
def executeStep (cfg : RobotConfig) (executedToday : Nat) (r : Recommendation)
    (api : Except Unit Bool) : Nat × Nat :=
  match buildOrder cfg r with
  | none => (executedToday, 0)
  | some _ =>
      match api with
      | Except.ok true => (executedToday + 1, 1)
      | Except.ok false => (executedToday, 1)
      | Except.error _ => (executedToday, 1)

/-- One scan body after the enabled guard: select, gate on capacity, and run
the execution step on the dispatched candidate when there is one. Returns the
executedToday counter after the scan and the number of Execution API calls. -/
def scanExec (cfg : RobotConfig) (executedToday : Nat)
    (qwenRecs deepseekRecs : List Recommendation) (api : Except Unit Bool) : Nat × Nat :=
  match scanDispatch cfg executedToday qwenRecs deepseekRecs with
  | none => (executedToday, 0)
  | some c => executeStep cfg executedToday c api

/-- The scan step together with the environment state the admission rules of
the specification quantify over: the set of open position symbols, the time
since the last execution against the cooldown, and the realized daily loss
against its bound. scanForSignals reads none of these inputs — its only
admission check is executedToday < maxPositions — so the result is scanExec
on the remaining arguments. -/
def scanWithEnv (cfg : RobotConfig) (executedToday : Nat)
    (openSymbols : List String) (secondsSinceLastExec cooldownSeconds : ℚ)
    (dailyLoss maxDailyLoss : ℚ)
    (qwenRecs deepseekRecs : List Recommendation) (api : Except Unit Bool) : Nat × Nat :=
  scanExec cfg executedToday qwenRecs deepseekRecs api

/-- One interval tick: scanForSignals returns immediately when the config is
disabled, and otherwise runs the scan body. Its only guard is
config.enabled; the status value (the run state) is set during a scan but
never consulted by the guard, so it is an unused argument here. A dropped
tick is none; a tick that runs the scan is some of its outcome. -/
def tickScan (cfg : RobotConfig) (st : RunState) (executedToday : Nat)
    (qwenRecs deepseekRecs : List Recommendation) (api : Except Unit Bool) :
    Option (Nat × Nat) :=
  if cfg.enabled then some (scanExec cfg executedToday qwenRecs deepseekRecs api) else none

/-- The environment-change effect on the enabled flag. When the component is
mounted and enabled, it awaits robotApi.stop, locally clears enabled, and
reloads the config from the backend; a thrown stop call is caught and leaves
the flag as it was, and a successful reload overwrites the flag with the
backend value. stopCall is the outcome of robotApi.stop (ok carries its
success field, which the effect does not consult); reload is the enabled
value the backend reload reports, or none when the reload itself fails and
keeps the locally cleared flag. -/
def envChangeStep (mounted enabled : Bool) (stopCall : Except Unit Bool)
    (reload : Option Bool) : Bool :=
  if mounted ∧ enabled then
    match stopCall with
    | Except.error _ => enabled
    | Except.ok _ =>
        match reload with
        | some backendEnabled => backendEnabled
        | none => false
  else enabled

/-- The list of signals one scan hands to execution: empty or a singleton. -/
def dispatchedList (cfg : RobotConfig) (executedToday : Nat)
    (qwenRecs deepseekRecs : List Recommendation) : List Recommendation :=
  (scanDispatch cfg executedToday qwenRecs deepseekRecs).toList

/-- The default configuration with the robot switched on. -/
def cfgOn : RobotConfig := { DEFAULT_CONFIG with enabled := true }

/-- Example: a BTC buy at confidence 80 from the first provider. -/
def exBtc80 : Recommendation :=
  { symbol := "BTC", signal := "BUY", confidence := 80, entry_price := some 42000 }

/-- Example: a BTC buy at confidence 90 from the second provider. -/
def exBtc90 : Recommendation :=
  { symbol := "BTC", signal := "BUY", confidence := 90, entry_price := some 42000 }

/-- Example: an ETH buy at confidence 95 from the second provider. -/
def exEth95 : Recommendation :=
  { symbol := "ETH", signal := "BUY", confidence := 95, entry_price := some 2500 }

/-- Example first-provider result list. -/
def exQwen : List Recommendation := [exBtc80]

/-- Example second-provider result list. -/
def exDeep : List Recommendation := [exBtc90, exEth95]

/-- Example: a first BTC buy at full confidence from the sole provider. -/
def soloBtcA : Recommendation :=
  { symbol := "BTC", signal := "BUY", confidence := 100, entry_price := some 42000 }

/-- Example: a second BTC recommendation at full confidence from the same
sole provider. -/
def soloBtcB : Recommendation :=
  { symbol := "BTC", signal := "STRONG BUY", confidence := 100, entry_price := some 42000 }

/-- Example result list of a single provider mentioning one symbol twice. -/
def soloQwen : List Recommendation := [soloBtcA, soloBtcB]

/-- Example: a signal carrying only an entry range. -/
def recRange : Recommendation :=
  { symbol := "BTC", signal := "BUY", confidence := 90, entry_range := some "42000-43000" }

/-- Example: a signal with no entry field at all. -/
def recNoEntry : Recommendation :=
  { symbol := "BTC", signal := "BUY", confidence := 90 }

/-- Example: a buy at entry 100 whose protective levels are both too close
to the entry. -/
def recTight : Recommendation :=
  { symbol := "BTC", signal := "BUY", confidence := 90, entry_price := some 100,
    target_price := some (1003 / 10), stop_loss := some (1003 / 10) }


theorem pickBest_mem {l : List Recommendation} {c : Recommendation}
    (h : pickBest l = some c) : c ∈ l := by
  induction l generalizing c with
  | nil => simp [pickBest] at h
  | cons r rs ih =>
      rw [pickBest] at h
      cases hrs : pickBest rs with
      | none =>
          rw [hrs] at h
          simp at h
          simp [h]
      | some b =>
          rw [hrs] at h
          by_cases hc : b.confidence > r.confidence
          · simp [hc] at h
            exact List.mem_cons_of_mem r (ih (hrs.trans (congrArg some h)))
          · simp [hc] at h
            simp [h]

theorem pickBest_eq_none {l : List Recommendation} (h : pickBest l = none) : l = [] := by
  cases l with
  | nil => rfl
  | cons r rs =>
      rw [pickBest] at h
      cases hrs : pickBest rs with
      | none => rw [hrs] at h; simp at h
      | some b =>
          rw [hrs] at h
          by_cases hc : b.confidence > r.confidence <;> simp [hc] at h

theorem pickBest_max {l : List Recommendation} {c : Recommendation}
    (h : pickBest l = some c) : ∀ x ∈ l, x.confidence ≤ c.confidence := by
  induction l generalizing c with
  | nil => simp [pickBest] at h
  | cons r rs ih =>
      rw [pickBest] at h
      cases hrs : pickBest rs with
      | none =>
          rw [hrs] at h
          simp at h
          subst h
          have : rs = [] := pickBest_eq_none hrs
          subst this
          simp
      | some b =>
          rw [hrs] at h
          by_cases hc : b.confidence > r.confidence
          · simp [hc] at h
            subst h
            intro x hx
            rcases List.mem_cons.mp hx with hx | hx
            · exact le_of_lt (hx ▸ hc)
            · exact ih hrs x hx
          · simp [hc] at h
            subst h
            intro x hx
            rcases List.mem_cons.mp hx with hx | hx
            · exact le_of_eq (congrArg _ hx)
            · exact le_trans (ih hrs x hx) (not_lt.mp hc)

theorem passesFilter_of_mem_surviving {m : ℚ} {q d : List Recommendation}
    {c : Recommendation} (h : c ∈ survivingSignals m q d) :
    passesFilter m c = true := by
  unfold survivingSignals filteredUnion at h
  have h1 := List.mem_filter.mp h
  exact (List.mem_filter.mp h1.1).2

theorem consensus_of_mem_surviving {m : ℚ} {q d : List Recommendation}
    {c : Recommendation} (h : c ∈ survivingSignals m q d) :
    2 ≤ symbolCount (filteredUnion m q d) c.symbol := by
  unfold survivingSignals at h
  have h1 := List.mem_filter.mp h
  simpa using h1.2

theorem scanCandidate_mem_surviving {m : ℚ} {q d : List Recommendation}
    {c : Recommendation} (h : scanCandidate m q d = some c) :
    c ∈ survivingSignals m q d :=
  pickBest_mem h

theorem passesFilter_spec {m : ℚ} {r : Recommendation}
    (h : passesFilter m r = true) :
    r.is_fallback = false ∧ m ≤ r.confidence ∧ actionableSignals.contains r.signal = true := by
  unfold passesFilter at h
  simp only [Bool.and_eq_true, Bool.not_eq_true', decide_eq_true_eq] at h
  exact ⟨h.1.1, h.1.2, h.2⟩

theorem scanDispatch_eq_candidate {cfg : RobotConfig} {executedToday : Nat}
    {q d : List Recommendation} {c : Recommendation}
    (h : scanDispatch cfg executedToday q d = some c) :
    scanCandidate cfg.minConfidence q d = some c ∧ executedToday < cfg.maxPositions := by
  unfold scanDispatch at h
  cases hc : scanCandidate cfg.minConfidence q d with
  | none => rw [hc] at h; simp at h
  | some b =>
      rw [hc] at h
      by_cases hlt : executedToday < cfg.maxPositions
      · simp [hlt] at h
        exact ⟨congrArg some h, hlt⟩
      · simp [hlt] at h

/-- C1: a signal with direction HOLD, or marked as a fallback, or whose
confidence is below minConfidence is never selected as the scan candidate and
never dispatched for execution: whatever a scan selects or dispatches is not
a fallback, meets the confidence threshold, and does not carry the HOLD
direction. -/
theorem C1_excluded_signals (cfg : RobotConfig) (executedToday : Nat)
    (q d : List Recommendation) (c : Recommendation)
    (h : scanCandidate cfg.minConfidence q d = some c ∨
         scanDispatch cfg executedToday q d = some c) :
    c.is_fallback = false ∧ cfg.minConfidence ≤ c.confidence ∧ c.signal ≠ "HOLD" := by
  have hcand : scanCandidate cfg.minConfidence q d = some c := by
    rcases h with h | h
    · exact h
    · exact (scanDispatch_eq_candidate h).1
  have hmem := scanCandidate_mem_surviving hcand
  have hf := passesFilter_spec (passesFilter_of_mem_surviving hmem)
  refine ⟨hf.1, hf.2.1, ?_⟩
  intro hH
  have hcontains := hf.2.2
  rw [hH] at hcontains
  exact absurd hcontains (by decide)

/-- C1 witness: on the concrete example scan the dispatched BTC signal is not
a fallback, meets the 75 percent threshold, and is not HOLD. -/
theorem C1_excluded_signals_witness :
    exBtc90.is_fallback = false ∧ cfgOn.minConfidence ≤ exBtc90.confidence ∧
      exBtc90.signal ≠ "HOLD" :=
  C1_excluded_signals cfgOn 0 exQwen exDeep exBtc90 (Or.inl (by decide))

/-- C2 counterexample: with both recommendations coming from the single first
provider (the second provider list is empty), the symbol BTC is supported by
exactly one distinct provider, yet it is selected and dispatched at full
confidence: the consensus test counts signal occurrences per symbol, not
distinct providers. This refutes the claim that one-provider support is never
admitted under required consensus. -/
theorem C2_counterexample :
    scanCandidate cfgOn.minConfidence soloQwen [] = some soloBtcA ∧
    scanDispatch cfgOn 0 soloQwen [] = some soloBtcA ∧
    soloBtcA.confidence = 100 ∧ soloBtcA.symbol = "BTC" := by
  exact ⟨by decide, by decide, by decide, by decide⟩

/-- C2 amended: admission requires at least two surviving signals for the
same symbol in the concatenated provider results; the count distinguishes
neither providers nor directions, so two signals of one provider (or signals
of opposite directions) satisfy it. Formally, every selected candidate
carries a symbol that occurs at least twice in the filtered union. -/
theorem C2_consensus_amended (m : ℚ) (q d : List Recommendation)
    (c : Recommendation) (h : scanCandidate m q d = some c) :
    2 ≤ symbolCount (filteredUnion m q d) c.symbol :=
  consensus_of_mem_surviving (scanCandidate_mem_surviving h)

/-- C2 amended witness: in the one-provider example the admitted symbol BTC
occurs twice in the filtered union. -/
theorem C2_consensus_amended_witness :
    2 ≤ symbolCount (filteredUnion cfgOn.minConfidence soloQwen []) soloBtcA.symbol :=
  C2_consensus_amended cfgOn.minConfidence soloQwen [] soloBtcA (by decide)

/-- C3: every scan produces at most one execution candidate, and a selected
candidate is a surviving signal of maximal confidence among all signals that
survive consensus filtering. -/
theorem C3_single_best_candidate (cfg : RobotConfig) (executedToday : Nat)
    (q d : List Recommendation) :
    (dispatchedList cfg executedToday q d).length ≤ 1 ∧
    ∀ c, scanCandidate cfg.minConfidence q d = some c →
      c ∈ survivingSignals cfg.minConfidence q d ∧
      ∀ r ∈ survivingSignals cfg.minConfidence q d, r.confidence ≤ c.confidence := by
  constructor
  · unfold dispatchedList
    cases scanDispatch cfg executedToday q d <;> simp
  · intro c hc
    exact ⟨scanCandidate_mem_surviving hc, pickBest_max hc⟩

/-- C3 witness: with two providers supporting BTC BUY at confidences 80 and
90 and one provider returning ETH BUY at confidence 95, the admitted
candidate is the BTC signal at confidence 90, not ETH, and it dominates every
surviving signal. -/
theorem C3_single_best_candidate_witness :
    scanCandidate cfgOn.minConfidence exQwen exDeep = some exBtc90 ∧
    exBtc90.symbol = "BTC" ∧ exBtc90.confidence = 90 ∧
    exEth95.symbol = "ETH" ∧ exEth95.confidence = 95 ∧
    ∀ r ∈ survivingSignals cfgOn.minConfidence exQwen exDeep,
      r.confidence ≤ exBtc90.confidence := by
  refine ⟨by decide, by decide, by decide, by decide, by decide, ?_⟩
  exact ((C3_single_best_candidate cfgOn 0 exQwen exDeep).2 exBtc90 (by decide)).2

/-- C4: when executedToday has reached or passed maxPositions at candidate
selection time, the scan dispatches nothing: no signal reaches execution, the
counter is unchanged, and no Execution API call is made, whatever the signal
quality. -/
theorem C4_capacity_blocks (cfg : RobotConfig) (executedToday : Nat)
    (q d : List Recommendation) (api : Except Unit Bool)
    (h : cfg.maxPositions ≤ executedToday) :
    scanDispatch cfg executedToday q d = none ∧
    scanExec cfg executedToday q d api = (executedToday, 0) := by
  have hd : scanDispatch cfg executedToday q d = none := by
    unfold scanDispatch
    cases scanCandidate cfg.minConfidence q d with
    | none => rfl
    | some c => simp [Nat.not_lt.mpr h]
  refine ⟨hd, ?_⟩
  unfold scanExec
  rw [hd]

/-- C4 witness: at the capacity of three executed trades the example scan,
whose candidate has confidence 90, dispatches nothing and makes no API
call. -/
theorem C4_capacity_blocks_witness :
    scanDispatch cfgOn 3 exQwen exDeep = none ∧
    scanExec cfgOn 3 exQwen exDeep (Except.ok true) = (3, 0) :=
  C4_capacity_blocks cfgOn 3 exQwen exDeep (Except.ok true) (by decide)

/-- C5 counterexample: a scan whose selected candidate is the BTC signal
executes it — one API call is made and the counter moves to 1 — even though
the symbol BTC already has an open position, only 1 second of a 10 second
cooldown has elapsed since the last execution, and the realized daily loss
of 60 has reached the daily loss bound of 60. This refutes the claim that a
candidate is rejected under any of those conditions: the code queries none of
them. -/
theorem C5_counterexample :
    scanDispatch cfgOn 0 exQwen exDeep = some exBtc90 ∧
    exBtc90.symbol = "BTC" ∧ "BTC" ∈ (["BTC"] : List String) ∧
    (1 : ℚ) < 10 ∧ (60 : ℚ) ≤ 60 ∧
    scanWithEnv cfgOn 0 ["BTC"] 1 10 60 60 exQwen exDeep (Except.ok true) = (1, 1) := by
  exact ⟨by decide, by decide, by decide, by decide, by decide, by decide⟩

/-- C5 amended: the only admission check applied to a selected candidate is
the capacity check executedToday < maxPositions (followed by the entry-price
check of the sizing step). The scan outcome is independent of the open
position set, the cooldown clock, and the daily loss: the number of
Execution API calls equals 1 exactly when a candidate exists, capacity is
left, and the candidate sizes to an order, whatever the environment state
says. -/
theorem C5_amended_capacity_only (cfg : RobotConfig) (executedToday : Nat)
    (openSymbols : List String) (secondsSinceLastExec cooldownSeconds : ℚ)
    (dailyLoss maxDailyLoss : ℚ) (q d : List Recommendation) (api : Except Unit Bool) :
    (scanWithEnv cfg executedToday openSymbols secondsSinceLastExec cooldownSeconds
        dailyLoss maxDailyLoss q d api).2 =
      (match scanCandidate cfg.minConfidence q d with
       | none => 0
       | some c =>
           if executedToday < cfg.maxPositions ∧ (buildOrder cfg c).isSome = true
           then 1 else 0) := by
  unfold scanWithEnv scanExec scanDispatch executeStep
  cases hc : scanCandidate cfg.minConfidence q d with
  | none => rfl
  | some c =>
      by_cases hlt : executedToday < cfg.maxPositions
      · simp only [hlt, if_true, true_and]
        cases hb : buildOrder cfg c with
        | none => simp
        | some o =>
            cases api with
            | ok b => cases b <;> simp
            | error e => simp
      · simp [hlt]

/-- C7 counterexample: a tick that arrives while the run state is Scanning,
which is not Idle, is not dropped: with the robot enabled the scan runs in
full and even dispatches a trade. This refutes the claim that such ticks are
dropped — scanForSignals never consults the status value. -/
theorem C7_counterexample :
    RunState.scanning ≠ RunState.idle ∧
    tickScan cfgOn RunState.scanning 0 exQwen exDeep (Except.ok true) = some (1, 1) := by
  exact ⟨by decide, by decide⟩

/-- C7 amended: a tick is dropped exactly when the robot is disabled; the run
state is never consulted by the guard, so the outcome of a tick is the same
in every run state and a tick arriving during an in-flight scan starts an
overlapping scan. -/
theorem C7_amended_enabled_guard (cfg : RobotConfig) (st : RunState)
    (executedToday : Nat) (q d : List Recommendation) (api : Except Unit Bool) :
    (tickScan cfg st executedToday q d api = none ↔ cfg.enabled = false) ∧
    ∀ st' : RunState,
      tickScan cfg st executedToday q d api = tickScan cfg st' executedToday q d api := by
  constructor
  · unfold tickScan
    by_cases h : cfg.enabled <;> simp [h]
  · intro st'
    rfl

/-- C8 counterexample: an environment change with the component mounted and
the robot enabled leaves the robot enabled when the stop call throws — the
effect catches the error and changes nothing. This refutes the claim that
every environment change results in a disabled robot. -/
theorem C8_counterexample :
    envChangeStep true true (Except.error ()) (some false) = true := by decide

/-- C8 amended: on an environment change with the component mounted, the
enabled flag ends false provided the stop call does not throw and the
subsequent backend config reload does not report the robot as still enabled;
a thrown stop call leaves the flag untouched, and a reload reporting enabled
true switches the robot back on. -/
theorem C8_amended_stop_on_change (enabled stopSuccess : Bool) (reload : Option Bool)
    (h : reload ≠ some true) :
    envChangeStep true enabled (Except.ok stopSuccess) reload = false := by
  unfold envChangeStep
  cases enabled with
  | false => simp
  | true =>
      simp only [and_true, if_true]
      cases reload with
      | none => simp
      | some b =>
          cases b with
          | false => simp
          | true => exact absurd rfl h

/-- C8 amended witness: mounted and enabled, a stop call that does not throw
followed by a reload reporting disabled ends with the robot disabled. -/
theorem C8_amended_stop_on_change_witness :
    envChangeStep true true (Except.ok true) (some false) = false :=
  C8_amended_stop_on_change true true (some false) (by decide)

theorem jsOpt_validLevel (p minD rep : ℚ) (hrep : rep ≠ 0) (raw : Option ℚ) :
    jsOpt (match raw with
           | none => none
           | some v => if v ≠ 0 ∧ |v - p| < minD then some rep else some v) =
      (match jsOpt raw with
       | none => none
       | some v => if |v - p| < minD then some rep else some v) := by
  cases raw with
  | none => rfl
  | some v =>
      by_cases hv : v = 0
      · subst hv
        simp [jsOpt]
      · by_cases hd : |v - p| < minD
        · simp [jsOpt, hv, hd, hrep]
        · simp [jsOpt, hv, hd]

/-- C6: the sizing step behaves as specified for every admitted candidate:
with a missing or nonpositive entry price no order is submitted; otherwise
an order is submitted whose quantity is capitalPerTrade divided by the entry
price, a present take-profit closer to entry than 0.5 percent of it is
replaced by entry times 1.02 for BUY and entry times 0.98 for SELL, a
present stop-loss closer than that distance is replaced by entry times 0.99
for BUY and entry times 1.01 for SELL, and an absent level is passed through
as absent. -/
theorem C6_risk_sizing (cfg : RobotConfig) (r : Recommendation) :
    (entryPriceOf r = none → buildOrder cfg r = none) ∧
    (∀ p, entryPriceOf r = some p → p ≤ 0 → buildOrder cfg r = none) ∧
    (∀ p, entryPriceOf r = some p → 0 < p →
      ∃ o, buildOrder cfg r = some o ∧
        o.quantity = cfg.capitalPerTrade / p ∧
        o.price = p ∧
        o.take_profit =
          (match presentTP r with
           | none => none
           | some tp =>
               if |tp - p| < p * (5 / 1000) then
                 some (if orderSide r = "BUY" then p * (102 / 100) else p * (98 / 100))
               else some tp) ∧
        o.stop_loss =
          (match presentSL r with
           | none => none
           | some sl =>
               if |sl - p| < p * (5 / 1000) then
                 some (if orderSide r = "BUY" then p * (99 / 100) else p * (101 / 100))
               else some sl)) := by
  refine ⟨?_, ?_, ?_⟩
  · intro h
    unfold buildOrder
    rw [h]
  · intro p hp hle
    unfold buildOrder
    rw [hp]
    simp [hle]
  · intro p hp hpos
    have hTPrep : (if orderSide r = "BUY" then p * (102 / 100) else p * (98 / 100)) ≠ 0 := by
      split_ifs <;> exact mul_ne_zero (ne_of_gt hpos) (by norm_num)
    have hSLrep : (if orderSide r = "BUY" then p * (99 / 100) else p * (101 / 100)) ≠ 0 := by
      split_ifs <;> exact mul_ne_zero (ne_of_gt hpos) (by norm_num)
    unfold buildOrder
    rw [hp]
    simp only [not_le.mpr hpos, if_false]
    refine ⟨_, rfl, rfl, rfl, ?_, ?_⟩
    · exact jsOpt_validLevel p (p * (5 / 1000)) _ hTPrep (takeProfitRaw r)
    · exact jsOpt_validLevel p (p * (5 / 1000)) _ hSLrep (stopLossRaw r)

/-- C6 witness: for the concrete buy signal at entry 100 with both levels at
100.3, which is closer than the 0.5 minimum distance, the submitted order has
quantity capitalPerTrade over 100, take-profit repaired to 102 and stop-loss
repaired to 99. -/
theorem C6_risk_sizing_witness :
    ∃ o, buildOrder cfgOn recTight = some o ∧
      o.quantity = cfgOn.capitalPerTrade / 100 ∧
      o.price = 100 ∧
      o.take_profit =
        (match presentTP recTight with
         | none => none
         | some tp =>
             if |tp - 100| < 100 * (5 / 1000) then
               some (if orderSide recTight = "BUY" then 100 * (102 / 100) else 100 * (98 / 100))
             else some tp) ∧
      o.stop_loss =
        (match presentSL recTight with
         | none => none
         | some sl =>
             if |sl - 100| < 100 * (5 / 1000) then
               some (if orderSide recTight = "BUY" then 100 * (99 / 100) else 100 * (101 / 100))
             else some sl) :=
  (C6_risk_sizing cfgOn recTight).2.2 100 (by decide) (by norm_num)

theorem executeStep_calls_le_one (cfg : RobotConfig) (executedToday : Nat)
    (r : Recommendation) (api : Except Unit Bool) :
    (executeStep cfg executedToday r api).2 ≤ 1 := by
  unfold executeStep
  cases buildOrder cfg r with
  | none => simp
  | some o =>
      cases api with
      | ok b => cases b <;> simp
      | error e => simp

/-- C9: one execution attempt makes at most one Execution API call — never a
retry within the scan, also at the scan level — and when the order is built:
a success report increments executedToday by exactly one, while a reported
failure or a thrown call leaves the counter unchanged; when the order is not
built no call is made and the counter is unchanged as well. -/
theorem C9_execution_outcome (cfg : RobotConfig) (executedToday : Nat)
    (r : Recommendation) (q d : List Recommendation) (api : Except Unit Bool) :
    (executeStep cfg executedToday r api).2 ≤ 1 ∧
    (scanExec cfg executedToday q d api).2 ≤ 1 ∧
    (api = Except.ok true → (buildOrder cfg r).isSome = true →
      (executeStep cfg executedToday r api).1 = executedToday + 1) ∧
    (api ≠ Except.ok true → (executeStep cfg executedToday r api).1 = executedToday) ∧
    ((buildOrder cfg r).isSome = false →
      executeStep cfg executedToday r api = (executedToday, 0)) := by
  refine ⟨executeStep_calls_le_one cfg executedToday r api, ?_, ?_, ?_, ?_⟩
  · unfold scanExec
    cases scanDispatch cfg executedToday q d with
    | none => simp
    | some c => exact executeStep_calls_le_one cfg executedToday c api
  · intro hapi hsome
    subst hapi
    unfold executeStep
    cases hb : buildOrder cfg r with
    | none => rw [hb] at hsome; simp at hsome
    | some o => rfl
  · intro hapi
    unfold executeStep
    cases buildOrder cfg r with
    | none => rfl
    | some o =>
        cases api with
        | ok b =>
            cases b with
            | true => exact absurd rfl hapi
            | false => rfl
        | error e => rfl
  · intro hnone
    unfold executeStep
    cases hb : buildOrder cfg r with
    | none => rfl
    | some o => rw [hb] at hnone; simp at hnone

/-- C9 witness: on the BTC signal a successful API call moves the counter
from 0 to 1, a thrown call leaves it at 0, and the example scan makes at
most one API call. -/
theorem C9_execution_outcome_witness :
    (executeStep cfgOn 0 exBtc90 (Except.ok true)).1 = 0 + 1 ∧
    (executeStep cfgOn 0 exBtc90 (Except.error ())).1 = 0 ∧
    (scanExec cfgOn 0 exQwen exDeep (Except.ok true)).2 ≤ 1 := by
  refine ⟨?_, ?_, ?_⟩
  · exact (C9_execution_outcome cfgOn 0 exBtc90 exQwen exDeep (Except.ok true)).2.2.1
      rfl (by decide)
  · exact (C9_execution_outcome cfgOn 0 exBtc90 exQwen exDeep (Except.error ())).2.2.2.1
      (by intro h; exact Except.noConfusion h)
  · exact (C9_execution_outcome cfgOn 0 exBtc90 exQwen exDeep (Except.ok true)).2.1

/-- C10: the execution step normalizes the entry price with the fixed
fallback chain: a present (truthy) entry_price is used first, else a present
entry, else the lower bound of a nonempty entry_range — the text before the
first dash, read as a number; when all three are absent the candidate is
aborted silently, with no Execution API call and no counter change. -/
theorem C10_entry_normalization (r : Recommendation) :
    (∀ p, r.entry_price = some p → p ≠ 0 → entryPriceOf r = some p) ∧
    ((r.entry_price = none ∨ r.entry_price = some 0) →
      ∀ q, r.entry = some q → q ≠ 0 → entryPriceOf r = some q) ∧
    ((r.entry_price = none ∨ r.entry_price = some 0) →
      (r.entry = none ∨ r.entry = some 0) →
      ∀ s, r.entry_range = some s → s.toList.isEmpty = false →
        entryPriceOf r = entryRangeLow s) ∧
    ((r.entry_price = none ∨ r.entry_price = some 0) →
      (r.entry = none ∨ r.entry = some 0) →
      (r.entry_range = none ∨ r.entry_range = some "") →
      entryPriceOf r = none ∧
      ∀ cfg executedToday api, executeStep cfg executedToday r api = (executedToday, 0)) := by
  refine ⟨?_, ?_, ?_, ?_⟩
  · intro p hp hne
    unfold entryPriceOf jsOr
    rw [hp]
    simp [hne]
  · intro hep q hq hne
    unfold entryPriceOf jsOr
    rcases hep with hep | hep <;> rw [hep, hq] <;> simp [hne]
  · intro hep hen s hs hne
    have hne' : s.data ≠ [] := by
      intro hd
      have hempty : s.toList.isEmpty = true := by
        rw [show s.toList = s.data from rfl, hd]
        rfl
      rw [hempty] at hne
      exact Bool.noConfusion hne
    unfold entryPriceOf jsOr
    rcases hep with hep | hep <;> rcases hen with hen | hen <;>
      rw [hep, hen, hs] <;> simp <;> exact fun hd => absurd hd hne'
  · intro hep hen her
    have hnone : entryPriceOf r = none := by
      unfold entryPriceOf jsOr
      rcases hep with hep | hep <;> rcases hen with hen | hen <;>
        rcases her with her | her <;> rw [hep, hen, her] <;> simp
    refine ⟨hnone, ?_⟩
    intro cfg executedToday api
    have hb : buildOrder cfg r = none := by
      unfold buildOrder
      rw [hnone]
    unfold executeStep
    rw [hb]

/-- C10 witness: a signal carrying only the range 42000-43000 is priced at
42000, the text before the dash; a signal with no entry field at all aborts
with no API call and an unchanged counter. -/
theorem C10_entry_normalization_witness :
    entryPriceOf recRange = entryRangeLow "42000-43000" ∧
    entryRangeLow "42000-43000" = some 42000 ∧
    entryPriceOf recNoEntry = none ∧
    executeStep cfgOn 0 recNoEntry (Except.ok true) = (0, 0) := by
  refine ⟨?_, by decide, ?_, ?_⟩
  · exact (C10_entry_normalization recRange).2.2.1 (Or.inl rfl) (Or.inl rfl)
      "42000-43000" rfl (by decide)
  · exact ((C10_entry_normalization recNoEntry).2.2.2 (Or.inl rfl) (Or.inl rfl)
      (Or.inl rfl)).1
  · exact ((C10_entry_normalization recNoEntry).2.2.2 (Or.inl rfl) (Or.inl rfl)
      (Or.inl rfl)).2 cfgOn 0 (Except.ok true)
